import Mathlib

/-!
Verification development for the plan_it_ahead travel-planning frontend.

This file shallowly embeds the client-side itinerary cart / checkout workflow
of the repository (the `Search` page in `src/unnamed/part_001`, and the chat
message merge in `src/frontend/src/pages/Chat.tsx`) and proves or refutes the
frozen specification claims about it.

Modelling conventions:
* JavaScript numbers that the code treats as integers (prices, timestamps in
  milliseconds, message ids, 32-bit hash state) are modelled as `Int`, with
  32-bit wrap-around made explicit where the code relies on it (`h = h & h`).
* JavaScript truthiness on optional record fields is modelled explicitly:
  a missing field is `none`, and `some 0` / `some ""` are falsy, exactly as
  `undefined`, `0` and `""` are falsy in JS.
* `localStorage` is modelled as a total map `String → Option String`.
* `JSON.parse` / `JSON.stringify` are modelled by a concrete executable
  JSON printer and recursive-descent parser over a `Json` value type
  (whole-number numerals, no insignificant whitespace, and escape handling
  limited to the standard single-character escapes; all stored blobs the
  code produces live in this fragment).  `JSON.parse` throwing on malformed
  input is modelled by the parser returning `none`.
-/

/-! ## JavaScript primitives -/

/-- JS truthiness of an optional string field: `undefined` and `""` are falsy. -/
def truthyS (o : Option String) : Bool :=
  match o with
  | some s => s ≠ ""
  | none => false

/-- JS truthiness of an optional numeric field: `undefined` and `0` are falsy. -/
def truthyI (o : Option Int) : Bool :=
  match o with
  | some n => n ≠ 0
  | none => false

/-- `a || d` for an optional string `a` and a string default `d`. -/
def jsOrS (o : Option String) (d : String) : String :=
  match o with
  | some s => if s = "" then d else s
  | none => d

/-- `a || d` for an optional number `a` and a numeric default `d`. -/
def jsOrI (o : Option Int) (d : Int) : Int :=
  match o with
  | some n => if n = 0 then d else n
  | none => d

/-- `a || b` keeping the optional type (used where the JS default is `undefined`). -/
def jsOrOptS (a b : Option String) : Option String :=
  if truthyS a then a else b

/-- `a || b` on optional numbers, keeping the optional type. -/
def jsOrOptI (a b : Option Int) : Option Int :=
  if truthyI a then a else b

/-- `x || undefined`: a truthy value stays, a falsy one becomes `undefined`. -/
def jsTruthyOptS (a : Option String) : Option String :=
  if truthyS a then a else none

/-- `x || undefined` on optional numbers. -/
def jsTruthyOptI (a : Option Int) : Option Int :=
  if truthyI a then a else none

/-- Wrap an integer into the signed 32-bit range, as JS `h & h` (ToInt32) does. -/
def wrap32 (x : Int) : Int :=
  (x + 2147483648) % 4294967296 - 2147483648

theorem wrap32_bounds (x : Int) : -2147483648 ≤ wrap32 x ∧ wrap32 x < 2147483648 := by
  unfold wrap32
  omega

/-! ## The JSON model (`JSON.stringify` / `JSON.parse`) -/

inductive Json where
  | null : Json
  | bool : Bool → Json
  | num : Int → Json
  | str : String → Json
  | arr : List Json → Json
  | obj : List (String × Json) → Json

/-- Decimal digits of a natural number (fuel-based so that it reduces). -/
def natCharsAux : Nat → Nat → List Char → List Char
  | 0, _, acc => acc
  | fuel + 1, n, acc =>
    if n = 0 then acc
    else natCharsAux fuel (n / 10) (Nat.digitChar (n % 10) :: acc)

def natChars (n : Nat) : List Char :=
  if n = 0 then ['0'] else natCharsAux n n []

def intChars (n : Int) : List Char :=
  if n < 0 then '-' :: natChars (-n).toNat else natChars n.toNat

/-- Escape a string body the way `JSON.stringify` does (quotes and backslashes). -/
def escChars : List Char → List Char
  | [] => []
  | c :: cs =>
    if c = '"' then '\\' :: '"' :: escChars cs
    else if c = '\\' then '\\' :: '\\' :: escChars cs
    else c :: escChars cs

mutual
/-- `JSON.stringify`, producing the character list of the canonical output. -/
def printV : Json → List Char
  | Json.null => ['n', 'u', 'l', 'l']
  | Json.bool true => ['t', 'r', 'u', 'e']
  | Json.bool false => ['f', 'a', 'l', 's', 'e']
  | Json.num n => intChars n
  | Json.str s => '"' :: escChars s.data ++ ['"']
  | Json.arr l => '[' :: printArrItems l ++ [']']
  | Json.obj l => '{' :: printObjItems l ++ ['}']
termination_by structural j => j

def printArrItems : List Json → List Char
  | [] => []
  | x :: xs => printV x ++ printArrRest xs
termination_by structural l => l

def printArrRest : List Json → List Char
  | [] => []
  | y :: ys => ',' :: (printV y ++ printArrRest ys)
termination_by structural l => l

def printObjItems : List (String × Json) → List Char
  | [] => []
  | kv :: xs => ('"' :: escChars kv.1.data ++ ['"', ':']) ++ printV kv.2 ++ printObjRest xs
termination_by structural l => l

def printObjRest : List (String × Json) → List Char
  | [] => []
  | kv :: ys =>
    ',' :: (('"' :: escChars kv.1.data ++ ['"', ':']) ++ printV kv.2 ++ printObjRest ys)
termination_by structural l => l
end

/-- `JSON.stringify` as a `String`. -/
def stringifyS (j : Json) : String := String.mk (printV j)

/-- Numeric value of a run of decimal digit characters. -/
def charsToNat (l : List Char) : Nat :=
  l.foldl (fun a c => 10 * a + (c.toNat - 48)) 0

/-- Parse a maximal run of decimal digits (fails when there is none). -/
def parseNatA (cs : List Char) : Option (Nat × List Char) :=
  let ds := cs.takeWhile Char.isDigit
  if ds = [] then none else some (charsToNat ds, cs.dropWhile Char.isDigit)

/-- Meaning of a single-character JSON escape. -/
def unescChar (c : Char) : Option Char :=
  if c = '"' then some '"'
  else if c = '\\' then some '\\'
  else if c = '/' then some '/'
  else if c = 'n' then some '\n'
  else if c = 't' then some '\t'
  else if c = 'r' then some '\r'
  else none

/-- Parse a string body up to the closing quote. -/
def parseStrChars : List Char → Option (List Char × List Char)
  | [] => none
  | c :: rest =>
    if c = '"' then some ([], rest)
    else if c = '\\' then
      match rest with
      | [] => none
      | e :: rest2 =>
        match unescChar e with
        | none => none
        | some u => (parseStrChars rest2).map (fun p => (u :: p.1, p.2))
    else (parseStrChars rest).map (fun p => (c :: p.1, p.2))

mutual
/-- Recursive-descent `JSON.parse` on the whitespace-free JSON fragment. -/
def parseV : Nat → List Char → Option (Json × List Char)
  | 0, _ => none
  | fuel + 1, cs =>
    match cs with
    | 'n' :: 'u' :: 'l' :: 'l' :: rest => some (Json.null, rest)
    | 't' :: 'r' :: 'u' :: 'e' :: rest => some (Json.bool true, rest)
    | 'f' :: 'a' :: 'l' :: 's' :: 'e' :: rest => some (Json.bool false, rest)
    | '"' :: rest => (parseStrChars rest).map (fun p => (Json.str (String.mk p.1), p.2))
    | '[' :: ']' :: rest => some (Json.arr [], rest)
    | '[' :: rest => (parseElems fuel rest).map (fun p => (Json.arr p.1, p.2))
    | '{' :: '}' :: rest => some (Json.obj [], rest)
    | '{' :: rest => (parseMembers fuel rest).map (fun p => (Json.obj p.1, p.2))
    | '-' :: rest => (parseNatA rest).map (fun p => (Json.num (-(p.1 : Int)), p.2))
    | _ => (parseNatA cs).map (fun p => (Json.num (p.1 : Int), p.2))

/-- Parse the elements of a non-empty array, consuming the closing bracket. -/
def parseElems : Nat → List Char → Option (List Json × List Char)
  | 0, _ => none
  | fuel + 1, cs =>
    match parseV fuel cs with
    | none => none
    | some (v, r1) =>
      match r1 with
      | ',' :: r2 => (parseElems fuel r2).map (fun p => (v :: p.1, p.2))
      | ']' :: r2 => some ([v], r2)
      | _ => none

/-- Parse the members of a non-empty object, consuming the closing brace. -/
def parseMembers : Nat → List Char → Option (List (String × Json) × List Char)
  | 0, _ => none
  | fuel + 1, cs =>
    match cs with
    | '"' :: rest =>
      match parseStrChars rest with
      | none => none
      | some (k, r1) =>
        match r1 with
        | ':' :: r2 =>
          match parseV fuel r2 with
          | none => none
          | some (v, r3) =>
            match r3 with
            | ',' :: r4 => (parseMembers fuel r4).map (fun p => ((String.mk k, v) :: p.1, p.2))
            | '}' :: r4 => some ([(String.mk k, v)], r4)
            | _ => none
        | _ => none
    | _ => none
end

/-- `JSON.parse`: `none` models the `SyntaxError` the real function throws. -/
def jsonParse (s : String) : Option Json :=
  match parseV (s.data.length + 1) s.data with
  | some (j, []) => some j
  | _ => none

example : jsonParse "[]" = some (Json.arr []) := by rfl
example : jsonParse "xyz" = none := by rfl
example : stringifyS (Json.arr [Json.num 300]) = "[300]" := by rfl

/-! ### The printer/parser round trip

`JSON.parse(JSON.stringify(v))` recovers `v`.  We prove this for every value
in the well-formed fragment `wfB` (strings free of characters that need
escaping), which contains every blob the embedded code stores. -/

def wfChar (c : Char) : Bool := !(c = '"' || c = '\\')

mutual
def wfB : Json → Bool
  | Json.null => true
  | Json.bool _ => true
  | Json.num _ => true
  | Json.str s => s.data.all wfChar
  | Json.arr l => wfArrB l
  | Json.obj l => wfObjB l
termination_by structural j => j

def wfArrB : List Json → Bool
  | [] => true
  | x :: xs => wfB x && wfArrB xs
termination_by structural l => l

def wfObjB : List (String × Json) → Bool
  | [] => true
  | kv :: xs => kv.1.data.all wfChar && wfB kv.2 && wfObjB xs
termination_by structural l => l
end

theorem stringMk_data (s : String) : String.mk s.data = s := by
  cases s
  rfl

theorem natCharsAux_eq (fuel n : Nat) (acc : List Char) (hn : 0 < n) (hf : n ≤ fuel) :
    natCharsAux fuel n acc = ((Nat.digits 10 n).reverse.map Nat.digitChar) ++ acc := by
  induction fuel generalizing n acc with
  | zero => omega
  | succ fuel ih =>
    rw [natCharsAux, if_neg (by omega)]
    rw [Nat.digits_def' (by norm_num : (1:ℕ) < 10) hn]
    by_cases h10 : n / 10 = 0
    · rw [h10]
      have : Nat.digits 10 (0:ℕ) = [] := by simp
      rw [this]
      cases fuel with
      | zero => simp [natCharsAux]
      | succ fuel => rw [natCharsAux, if_pos rfl]; simp
    · rw [ih (n / 10) _ (by omega) (by have := Nat.div_lt_self hn (by norm_num : 1 < 10); omega)]
      simp

theorem natChars_eq (n : Nat) (hn : 0 < n) :
    natChars n = (Nat.digits 10 n).reverse.map Nat.digitChar := by
  rw [natChars, if_neg (by omega), natCharsAux_eq n n [] hn (le_refl n)]
  simp

theorem digitChar_isDigit (d : Nat) (hd : d < 10) : (Nat.digitChar d).isDigit = true := by
  interval_cases d <;> decide

theorem digitChar_val (d : Nat) (hd : d < 10) : (Nat.digitChar d).toNat - 48 = d := by
  interval_cases d <;> decide

theorem natChars_all_digits (n : Nat) : ∀ c ∈ natChars n, c.isDigit = true := by
  intro c hc
  by_cases hn : n = 0
  · subst hn; simp [natChars] at hc; subst hc; decide
  · rw [natChars_eq n (by omega)] at hc
    simp only [List.mem_map, List.mem_reverse] at hc
    obtain ⟨d, hd, rfl⟩ := hc
    exact digitChar_isDigit d (Nat.digits_lt_base (by norm_num) hd)

theorem natChars_head (n : Nat) : ∃ d t, d < 10 ∧ natChars n = Nat.digitChar d :: t := by
  by_cases hn : n = 0
  · subst hn
    exact ⟨0, [], by norm_num, rfl⟩
  · rw [natChars_eq n (by omega)]
    have hne : Nat.digits 10 n ≠ [] := Nat.digits_ne_nil_iff_ne_zero.mpr hn
    rcases hrev : (Nat.digits 10 n).reverse with _ | ⟨d, ds⟩
    · exact absurd (by simpa using hrev) hne
    · have hd : d ∈ Nat.digits 10 n := by
        have : d ∈ (Nat.digits 10 n).reverse := by rw [hrev]; exact List.mem_cons_self d ds
        simpa using this
      exact ⟨d, ds.map Nat.digitChar, Nat.digits_lt_base (by norm_num) hd, rfl⟩

theorem charsToNat_digits (ds : List Nat) (h : ∀ d ∈ ds, d < 10) :
    charsToNat (ds.reverse.map Nat.digitChar) = Nat.ofDigits 10 ds := by
  induction ds with
  | nil => rfl
  | cons d ds ih =>
    have hmap : ((d :: ds).reverse.map Nat.digitChar)
        = ds.reverse.map Nat.digitChar ++ [Nat.digitChar d] := by simp
    rw [hmap, charsToNat, List.foldl_append]
    have hih := ih (fun x hx => h x (List.mem_cons_of_mem d hx))
    rw [charsToNat] at hih
    rw [hih, Nat.ofDigits_cons]
    simp only [List.foldl_cons, List.foldl_nil]
    rw [digitChar_val d (h d (List.mem_cons_self d ds))]
    ring

theorem charsToNat_natChars (n : Nat) : charsToNat (natChars n) = n := by
  by_cases hn : n = 0
  · subst hn; rfl
  · rw [natChars_eq n (by omega),
      charsToNat_digits _ (fun d hd => Nat.digits_lt_base (by norm_num) hd),
      Nat.ofDigits_digits]

/-- Absence of a leading digit, so that a printed numeral is read back whole. -/
def noDigitHead : List Char → Prop
  | [] => True
  | c :: _ => c.isDigit = false

theorem takeWhile_all_append (p : Char → Bool) (xs rest : List Char)
    (h : ∀ c ∈ xs, p c = true)
    (hr : match rest with | [] => True | r :: _ => p r = false) :
    (xs ++ rest).takeWhile p = xs ∧ (xs ++ rest).dropWhile p = rest := by
  induction xs with
  | nil =>
    cases rest with
    | nil => exact ⟨rfl, rfl⟩
    | cons r t =>
      refine ⟨?_, ?_⟩
      · show (r :: t).takeWhile p = []
        rw [List.takeWhile_cons]
        simp [hr]
      · show (r :: t).dropWhile p = r :: t
        rw [List.dropWhile_cons]
        simp [hr]
  | cons x xs ih =>
    have hx : p x = true := h x (List.mem_cons_self x xs)
    have hih := ih (fun c hc => h c (List.mem_cons_of_mem x hc))
    refine ⟨?_, ?_⟩
    · show ((x :: (xs ++ rest)).takeWhile p) = x :: xs
      rw [List.takeWhile_cons, if_pos hx, hih.1]
    · show ((x :: (xs ++ rest)).dropWhile p) = rest
      rw [List.dropWhile_cons, if_pos hx, hih.2]

theorem parseNatA_natChars (n : Nat) (rest : List Char) (hr : noDigitHead rest) :
    parseNatA (natChars n ++ rest) = some (n, rest) := by
  have h := takeWhile_all_append Char.isDigit (natChars n) rest (natChars_all_digits n)
    (by cases rest with | nil => trivial | cons r t => exact hr)
  rw [parseNatA]
  simp only [h.1, h.2]
  have hne : natChars n ≠ [] := by
    by_cases hn : n = 0
    · subst hn; simp [natChars]
    · obtain ⟨d, t, _, he⟩ := natChars_head n
      rw [he]; simp
  rw [if_neg hne, charsToNat_natChars]

theorem parseV_digitChar (fuel : Nat) (d : Nat) (hd : d < 10) (t : List Char) :
    parseV (fuel + 1) (Nat.digitChar d :: t)
      = (parseNatA (Nat.digitChar d :: t)).map (fun p => (Json.num (p.1 : Int), p.2)) := by
  interval_cases d <;> rfl

theorem escChars_wf (l : List Char) (h : l.all wfChar = true) : escChars l = l := by
  induction l with
  | nil => rfl
  | cons c cs ih =>
    simp only [List.all_cons, Bool.and_eq_true] at h
    have hc : ¬(c = '"') ∧ ¬(c = '\\') := by
      have := h.1
      unfold wfChar at this
      constructor <;> (intro hcc; subst hcc; simp at this)
    rw [escChars, if_neg hc.1, if_neg hc.2, ih h.2]

theorem parseStrChars_wf (l : List Char) (rest : List Char) (h : l.all wfChar = true) :
    parseStrChars (l ++ '"' :: rest) = some (l, rest) := by
  induction l with
  | nil =>
    rw [List.nil_append, parseStrChars.eq_def]
    rfl
  | cons c cs ih =>
    simp only [List.all_cons, Bool.and_eq_true] at h
    have hc : ¬(c = '"') ∧ ¬(c = '\\') := by
      have := h.1
      unfold wfChar at this
      constructor <;> (intro hcc; subst hcc; simp at this)
    rw [List.cons_append, parseStrChars.eq_def]
    dsimp only []
    rw [if_neg hc.1, if_neg hc.2, ih h.2]
    rfl

theorem parseV_lbrack (fuel : Nat) (x : Json) (tail : List Char) :
    parseV (fuel + 1) ('[' :: (printV x ++ tail))
      = (parseElems fuel (printV x ++ tail)).map (fun p => (Json.arr p.1, p.2)) := by
  cases x with
  | null => rfl
  | bool b => cases b <;> rfl
  | num n =>
    by_cases hneg : n < 0
    · have he : printV (Json.num n) = '-' :: natChars (-n).toNat := by
        show intChars n = _
        rw [intChars, if_pos hneg]
      rw [he]
      rfl
    · have he : printV (Json.num n) = natChars n.toNat := by
        show intChars n = _
        rw [intChars, if_neg hneg]
      obtain ⟨d, t, hd, hh⟩ := natChars_head n.toNat
      rw [he, hh]
      interval_cases d <;> rfl
  | str s => rfl
  | arr l => rfl
  | obj l => rfl

theorem printArrRest_length (y : Json) (ys : List Json) :
    (printArrRest (y :: ys)).length = (printArrItems (y :: ys)).length + 1 := by
  rw [printArrRest, printArrItems]
  simp

theorem printObjRest_length (kv : String × Json) (ys : List (String × Json)) :
    (printObjRest (kv :: ys)).length = (printObjItems (kv :: ys)).length + 1 := by
  rw [printObjRest, printObjItems]
  simp

theorem parse_print_all : ∀ fuel : Nat,
    (∀ j rest, wfB j = true → (printV j).length < fuel → noDigitHead rest →
       parseV fuel (printV j ++ rest) = some (j, rest)) ∧
    (∀ l rest, l ≠ [] → wfArrB l = true → (printArrItems l).length + 1 < fuel →
       parseElems fuel (printArrItems l ++ ']' :: rest) = some (l, rest)) ∧
    (∀ l rest, l ≠ [] → wfObjB l = true → (printObjItems l).length + 1 < fuel →
       parseMembers fuel (printObjItems l ++ '}' :: rest) = some (l, rest)) := by
  intro fuel
  induction fuel with
  | zero =>
    refine ⟨fun j rest _ hlen _ => absurd hlen (by omega),
            fun l rest _ _ hlen => absurd hlen (by omega),
            fun l rest _ _ hlen => absurd hlen (by omega)⟩
  | succ fuel ih =>
    obtain ⟨ihA, ihB, ihC⟩ := ih
    refine ⟨?_, ?_, ?_⟩
    · -- values
      intro j rest hwf hlen hnd
      cases j with
      | null => rfl
      | bool b => cases b <;> rfl
      | num n =>
        by_cases hneg : n < 0
        · have he : printV (Json.num n) = '-' :: natChars (-n).toNat := by
            show intChars n = _
            rw [intChars, if_pos hneg]
          rw [he, List.cons_append]
          show (parseNatA (natChars (-n).toNat ++ rest)).map
              (fun p => (Json.num (-(p.1 : Int)), p.2)) = some (Json.num n, rest)
          rw [parseNatA_natChars _ rest hnd]
          have hcast : (((-n).toNat : Nat) : Int) = -n := Int.toNat_of_nonneg (by omega)
          simp [hcast]
        · have he : printV (Json.num n) = natChars n.toNat := by
            show intChars n = _
            rw [intChars, if_neg hneg]
          obtain ⟨d, t, hd, hh⟩ := natChars_head n.toNat
          have hp : parseNatA (natChars n.toNat ++ rest) = some (n.toNat, rest) :=
            parseNatA_natChars _ rest hnd
          rw [he, hh, List.cons_append, parseV_digitChar fuel d hd]
          rw [hh, List.cons_append] at hp
          rw [hp]
          have hcast : ((n.toNat : Nat) : Int) = n := Int.toNat_of_nonneg (by omega)
          simp [hcast]
      | str s =>
        have hwfs : s.data.all wfChar = true := by simpa [wfB] using hwf
        have he : printV (Json.str s) ++ rest = '"' :: (s.data ++ '"' :: rest) := by
          show ('"' :: escChars s.data ++ ['"']) ++ rest = _
          rw [escChars_wf _ hwfs]
          simp
        rw [he]
        show (parseStrChars (s.data ++ '"' :: rest)).map
            (fun p => (Json.str (String.mk p.1), p.2)) = some (Json.str s, rest)
        rw [parseStrChars_wf _ rest hwfs]
        simp [stringMk_data]
      | arr l =>
        cases l with
        | nil => rfl
        | cons x xs =>
          have he : printV (Json.arr (x :: xs)) ++ rest
              = '[' :: (printV x ++ (printArrRest xs ++ ']' :: rest)) := by
            show ('[' :: printArrItems (x :: xs) ++ [']']) ++ rest = _
            rw [printArrItems]
            simp
          rw [he, parseV_lbrack fuel x _]
          have hlen2 : (printArrItems (x :: xs)).length + 1 < fuel := by
            have hpl : (printV (Json.arr (x :: xs))).length
                = (printArrItems (x :: xs)).length + 2 := by
              show ('[' :: printArrItems (x :: xs) ++ [']']).length = _
              simp
            omega
          have hB := ihB (x :: xs) rest (by simp) (by simpa [wfB] using hwf) hlen2
          rw [printArrItems, List.append_assoc] at hB
          rw [hB]
          rfl
      | obj l =>
        cases l with
        | nil => rfl
        | cons kv xs =>
          have he : printV (Json.obj (kv :: xs)) ++ rest
              = '{' :: (printObjItems (kv :: xs) ++ '}' :: rest) := by
            show ('{' :: printObjItems (kv :: xs) ++ ['}']) ++ rest = _
            simp
          have hlen2 : (printObjItems (kv :: xs)).length + 1 < fuel := by
            have hpl : (printV (Json.obj (kv :: xs))).length
                = (printObjItems (kv :: xs)).length + 2 := by
              show ('{' :: printObjItems (kv :: xs) ++ ['}']).length = _
              simp
            omega
          have hC := ihC (kv :: xs) rest (by simp) (by simpa [wfB] using hwf) hlen2
          have hred : parseV (fuel + 1) ('{' :: (printObjItems (kv :: xs) ++ '}' :: rest))
              = (parseMembers fuel (printObjItems (kv :: xs) ++ '}' :: rest)).map
                  (fun p => (Json.obj p.1, p.2)) := by
            rw [printObjItems]
            rfl
          rw [he, hred, hC]
          rfl
    · -- array elements
      intro l rest hne hwf hlen
      cases l with
      | nil => exact absurd rfl hne
      | cons x xs =>
        have hwf2 : wfB x = true ∧ wfArrB xs = true := by
          have hh := hwf
          rw [wfArrB] at hh
          simp only [Bool.and_eq_true] at hh
          exact hh
        have hitems : printArrItems (x :: xs) = printV x ++ printArrRest xs := by
          rw [printArrItems]
        have hlenx : (printV x).length < fuel := by
          have : (printArrItems (x :: xs)).length
              = (printV x).length + (printArrRest xs).length := by
            rw [hitems]; simp
          omega
        have hnd2 : noDigitHead (printArrRest xs ++ ']' :: rest) := by
          cases xs with
          | nil => rw [printArrRest]; simp [noDigitHead]
          | cons y ys => rw [printArrRest]; simp [noDigitHead]
        have hA := ihA x (printArrRest xs ++ ']' :: rest) hwf2.1 hlenx hnd2
        rw [hitems, List.append_assoc]
        show (match parseV fuel (printV x ++ (printArrRest xs ++ ']' :: rest)) with
              | none => none
              | some (v, r1) =>
                match r1 with
                | ',' :: r2 => (parseElems fuel r2).map (fun p => (v :: p.1, p.2))
                | ']' :: r2 => some ([v], r2)
                | _ => none) = some (x :: xs, rest)
        rw [hA]
        cases xs with
        | nil =>
          rw [printArrRest]
          rfl
        | cons y ys =>
          have hlen3 : (printArrItems (y :: ys)).length + 1 < fuel := by
            have h1 := printArrRest_length y ys
            have h2 : (printArrItems (x :: y :: ys)).length
                = (printV x).length + (printArrRest (y :: ys)).length := by
              rw [hitems]; simp
            omega
          have hB := ihB (y :: ys) rest (by simp) hwf2.2 hlen3
          rw [printArrRest, List.cons_append, List.append_assoc]
          show (parseElems fuel (printV y ++ (printArrRest ys ++ ']' :: rest))).map
              (fun p => (x :: p.1, p.2)) = some (x :: y :: ys, rest)
          rw [printArrItems, List.append_assoc] at hB
          rw [hB]
          rfl
    · -- object members
      intro l rest hne hwf hlen
      cases l with
      | nil => exact absurd rfl hne
      | cons kv xs =>
        obtain ⟨k, v⟩ := kv
        have hwf3 : k.data.all wfChar = true ∧ wfB v = true ∧ wfObjB xs = true := by
          have := hwf
          rw [wfObjB] at this
          simp only [Bool.and_eq_true] at this
          exact ⟨this.1.1, this.1.2, this.2⟩
        have hitems : printObjItems ((k, v) :: xs)
            = ('"' :: k.data ++ ['"', ':']) ++ printV v ++ printObjRest xs := by
          rw [printObjItems, escChars_wf _ hwf3.1]
        have hlenv : (printV v).length < fuel := by
          have : (printObjItems ((k, v) :: xs)).length
              = k.data.length + 3 + (printV v).length + (printObjRest xs).length := by
            rw [hitems]; simp; omega
          omega
        have hnd2 : noDigitHead (printObjRest xs ++ '}' :: rest) := by
          cases xs with
          | nil => rw [printObjRest]; simp [noDigitHead]
          | cons y ys => rw [printObjRest]; simp [noDigitHead]
        have hA := ihA v (printObjRest xs ++ '}' :: rest) hwf3.2.1 hlenv hnd2
        rw [hitems]
        simp only [List.cons_append, List.append_assoc, List.nil_append]
        show (match parseStrChars (k.data ++ '"' :: ':' :: (printV v ++ (printObjRest xs ++ '}' :: rest))) with
              | none => none
              | some (kk, r1) =>
                match r1 with
                | ':' :: r2 =>
                  match parseV fuel r2 with
                  | none => none
                  | some (vv, r3) =>
                    match r3 with
                    | ',' :: r4 => (parseMembers fuel r4).map (fun p => ((String.mk kk, vv) :: p.1, p.2))
                    | '}' :: r4 => some ([(String.mk kk, vv)], r4)
                    | _ => none
                | _ => none) = some ((k, v) :: xs, rest)
        rw [parseStrChars_wf _ _ hwf3.1]
        show (match parseV fuel (printV v ++ (printObjRest xs ++ '}' :: rest)) with
              | none => none
              | some (vv, r3) =>
                match r3 with
                | ',' :: r4 =>
                  (parseMembers fuel r4).map (fun p => ((String.mk k.data, vv) :: p.1, p.2))
                | '}' :: r4 => some ([(String.mk k.data, vv)], r4)
                | _ => none) = some ((k, v) :: xs, rest)
        rw [hA]
        cases xs with
        | nil =>
          rw [printObjRest]
          simp [stringMk_data]
        | cons y ys =>
          have hlen3 : (printObjItems (y :: ys)).length + 1 < fuel := by
            have h1 := printObjRest_length y ys
            have h2 : (printObjItems ((k, v) :: y :: ys)).length
                = k.data.length + 3 + (printV v).length + (printObjRest (y :: ys)).length := by
              rw [hitems]; simp; omega
            omega
          have hC := ihC (y :: ys) rest (by simp) hwf3.2.2 hlen3
          rw [printObjItems] at hC
          simp only [List.cons_append, List.append_assoc, List.nil_append] at hC
          rw [printObjRest]
          simp only [List.cons_append, List.append_assoc, List.nil_append]
          rw [hC]
          simp [stringMk_data]

/-- `JSON.parse ∘ JSON.stringify` is the identity on well-formed values. -/
theorem jsonParse_stringify (j : Json) (h : wfB j = true) :
    jsonParse (stringifyS j) = some j := by
  have hmain := (parse_print_all ((printV j).length + 1)).1 j [] h (by omega) trivial
  rw [List.append_nil] at hmain
  show (match parseV ((printV j).length + 1) (printV j) with
        | some (j, []) => some j
        | _ => none) = some j
  rw [hmain]

/-! ## Data model of the Search page (`src/unnamed/part_001`)

The `SearchResult` record with the optional fields the embedded code paths
read.  JS integer-valued number fields are `Option Int`, string fields
`Option String`; a `none` is an absent (`undefined`) field. -/

structure SearchResult where
  name : Option String := none
  title : Option String := none
  description : Option String := none
  price : Option Int := none
  price_per_night : Option Int := none
  rating : Option Int := none
  xid : Option String := none
  hotel_id : Option String := none
  hotel_key : Option String := none
  id : Option String := none
  image_url : Option String := none
  image : Option String := none
  thumbnail : Option String := none
  photo : Option String := none
  address : Option String := none
  best_time : Option String := none
  duration_minutes : Option Int := none
  estimated_cost : Option Int := none
deriving DecidableEq, Repr

def optStrField (k : String) (v : Option String) : List (String × Json) :=
  match v with
  | some s => [(k, Json.str s)]
  | none => []

def optIntField (k : String) (v : Option Int) : List (String × Json) :=
  match v with
  | some n => [(k, Json.num n)]
  | none => []

/-- `JSON.stringify(item)` for a search-result record: present fields in
declaration order (the runtime key order of the upstream record is not
recoverable from the source; the claims do not depend on it). -/
def searchResultToJson (it : SearchResult) : Json :=
  Json.obj (optStrField "name" it.name ++ optStrField "title" it.title
    ++ optStrField "description" it.description ++ optIntField "price" it.price
    ++ optIntField "price_per_night" it.price_per_night ++ optIntField "rating" it.rating
    ++ optStrField "xid" it.xid ++ optStrField "hotel_id" it.hotel_id
    ++ optStrField "hotel_key" it.hotel_key ++ optStrField "id" it.id
    ++ optStrField "image_url" it.image_url ++ optStrField "image" it.image
    ++ optStrField "thumbnail" it.thumbnail ++ optStrField "photo" it.photo
    ++ optStrField "address" it.address ++ optStrField "best_time" it.best_time
    ++ optIntField "duration_minutes" it.duration_minutes
    ++ optIntField "estimated_cost" it.estimated_cost)

/-! ## Source functions of the Search page -/

/-- `computeNights` (part_001 lines 267-280): inputs are the resolved check-in
and check-out dates as `new Date(s).getTime()` millisecond timestamps, `none`
for a missing date.  `Math.round` of the exact day quotient is modelled as
`⌊x + 1/2⌋` over the rationals, i.e. `(2n + day) / (2·day)` in floor division. -/
def computeNights (checkIn checkOut : Option Int) : Int :=
  match checkIn, checkOut with
  | some s, some e =>
    let diff := (2 * (e - s) + 86400000) / 172800000
    if diff > 0 then diff else 1
  | _, _ => 1

def FALLBACK_LOW : Int := 100
def FALLBACK_HIGH : Int := 400

/-- The `||`-chain selecting the hash key of `getFallbackPriceForItem`:
`item.hotel_key || item.hotel_id || item.id || item.name || item.title || ''`. -/
def fallbackKeyString (it : SearchResult) : String :=
  jsOrS it.hotel_key (jsOrS it.hotel_id (jsOrS it.id (jsOrS it.name (jsOrS it.title ""))))

/-- The djb2 loop of `getFallbackPriceForItem`: `h = ((h << 5) + h) + code`
followed by the 32-bit wrap `h = h & h`. -/
def hashDjb2 (cs : List Char) : Int :=
  cs.foldl (fun h c => wrap32 (wrap32 (h * 32) + h + (c.toNat : Int))) 5381

/-- `getFallbackPriceForItem` (part_001 lines 289-302). -/
def getFallbackPriceForItem (it : SearchResult) : Int :=
  let key := fallbackKeyString it
  let str := if key = "" then stringifyS (searchResultToJson it) else key
  let range := FALLBACK_HIGH - FALLBACK_LOW + 1
  FALLBACK_LOW + ((hashDjb2 str.data).natAbs : Int) % range

/-- `isHotelLike` (part_001 lines 262-265). -/
def isHotelLike (it : SearchResult) : Bool :=
  truthyS it.hotel_id || truthyS it.hotel_key || truthyI it.price_per_night
    || truthyI it.rating || truthyS it.address

/-- `normalizeAttraction` (part_001 lines 306-319). -/
def normalizeAttraction (item : SearchResult) : SearchResult :=
  { item with
    image_url := jsOrOptS item.image_url
      (jsOrOptS item.image (jsOrOptS item.thumbnail (jsOrOptS item.photo none))),
    xid := jsOrOptS item.xid (jsOrOptS item.id item.xid),
    name := some (jsOrS item.name (jsOrS item.title "")),
    description := some (jsOrS item.description ""),
    best_time := jsTruthyOptS item.best_time,
    duration_minutes := jsTruthyOptI item.duration_minutes,
    estimated_cost := jsOrOptI item.estimated_cost (jsOrOptI item.price none) }

/-- The attractions branch of `handleSearch` (part_001 lines 356-368):
normalize each raw entry and drop the ones that look like hotels. -/
def processAttractions (raw : List SearchResult) : List SearchResult :=
  (raw.map normalizeAttraction).filter (fun it => !(isHotelLike it))

/-- `handleSearch` for attractions, from the response downward: `some raw`
models a response whose `attractions` field is an array, `none` a response
without one.  Returns the results shown and the error message set. -/
def handleSearchAttractions (resp : Option (List SearchResult)) :
    List SearchResult × Option String :=
  match resp with
  | some raw =>
    let normalized := processAttractions raw
    (normalized,
      if normalized.length = 0 ∧ 0 < raw.length then
        some "Attractions endpoint returned results that appear to be hotels; none shown."
      else none)
  | none => ([], some "No attractions found (server returned unexpected data).")

/-! ## The Pending-Item Store (raw storage level) -/

abbrev Storage := String → Option String

def getItem (st : Storage) (k : String) : Option String := st k

def setItem (st : Storage) (k v : String) : Storage :=
  fun q => if q = k then some v else st q

def removeItem (st : Storage) (k : String) : Storage :=
  fun q => if q = k then none else st q

def emptyStorage : Storage := fun _ => none

def STORAGE_KEY : String := "planit_pending_items"

/-- `getPendingItems` (part_001 lines 88-91): `stored ? JSON.parse(stored) : []`.
The JS truthiness test makes both an absent value and a stored empty string
take the `[]` branch without parsing; for any other stored value there is no
try/catch, so a `JSON.parse` failure propagates, modelled as `Except.error`. -/
def getPendingItems (stored : Option String) : Except String Json :=
  match stored with
  | none => Except.ok (Json.arr [])
  | some s =>
    if s = "" then Except.ok (Json.arr [])
    else
      match jsonParse s with
      | some j => Except.ok j
      | none => Except.error "SyntaxError: JSON.parse"

/-- `addPendingItem` (part_001 lines 93-97): read, push, rewrite. -/
def addPendingItem (st : Storage) (item : Json) : Except String Storage :=
  match getPendingItems (getItem st STORAGE_KEY) with
  | Except.error e => Except.error e
  | Except.ok j =>
    match j with
    | Json.arr l => Except.ok (setItem st STORAGE_KEY (stringifyS (Json.arr (l ++ [item]))))
    | _ => Except.error "TypeError: items.push is not a function"

/-- Storage effect of `removePendingItem` (part_001 lines 647-655): read,
splice (a no-op on an out-of-range index, like `List.eraseIdx`), rewrite.
The success-message code after the write may still throw for an out-of-range
index; the write has already happened by then, so it is not part of the
storage semantics. -/
def removePendingItem (st : Storage) (index : Nat) : Except String Storage :=
  match getPendingItems (getItem st STORAGE_KEY) with
  | Except.error e => Except.error e
  | Except.ok j =>
    match j with
    | Json.arr l => Except.ok (setItem st STORAGE_KEY (stringifyS (Json.arr (l.eraseIdx index))))
    | _ => Except.error "TypeError: items.splice is not a function"

/-- `clearPendingItems` (part_001 lines 99-101). -/
def clearPendingItems (st : Storage) : Storage := removeItem st STORAGE_KEY

theorem getItem_setItem_same (st : Storage) (k v : String) :
    getItem (setItem st k v) k = some v := by
  simp [getItem, setItem]

theorem getItem_setItem_other (st : Storage) (k k' v : String) (h : k' ≠ k) :
    getItem (setItem st k v) k' = getItem st k' := by
  simp [getItem, setItem, h]

theorem getItem_removeItem_same (st : Storage) (k : String) :
    getItem (removeItem st k) k = none := by
  simp [getItem, removeItem]

theorem getItem_removeItem_other (st : Storage) (k k' : String) (h : k' ≠ k) :
    getItem (removeItem st k) k' = getItem st k' := by
  simp [getItem, removeItem, h]

/-! ## Chat message merge (`src/frontend/src/pages/Chat.tsx`, lines 42-63) -/

structure Message where
  message_id : Int
  sender_id : Int
  content : String
  created_at : Option String := none
deriving DecidableEq, Repr

/-- The `setMessages` updater of `loadMessages`: keep `prev` (skip the state
update) when the fetch brings no unseen identifier and has the same length,
otherwise take the server order wholesale. -/
def mergeMessages (prev newMessages : List Message) : List Message :=
  let existingIds := prev.map (fun m => m.message_id)
  let uniqueNewMessages := newMessages.filter (fun m => !(existingIds.contains m.message_id))
  if uniqueNewMessages.length = 0 ∧ prev.length = newMessages.length then prev
  else newMessages

/-! ## Pending items (typed level) and the add flow -/

structure PendingItem where
  type : String
  data : SearchResult
  addedAt : String
deriving DecidableEq, Repr

/-- The pure content of `handleAddToLocalStorage` (part_001 lines 457-488):
the pending item it builds and stores.  `Number(perNight || 0)` is the
identity on the already-numeric `perNight`. -/
def handleAddToLocalStorage (searchType : String) (selectedItem : SearchResult)
    (checkIn checkOut : Option Int) (addedAt : String) : PendingItem :=
  let itemType := if searchType = "hotels" then "hotel" else "attraction"
  let estimatedCost : Int :=
    if itemType = "hotel" then
      let nights := computeNights checkIn checkOut
      let perNight := jsOrI selectedItem.price_per_night
        (jsOrI selectedItem.price (getFallbackPriceForItem selectedItem))
      perNight * nights
    else
      jsOrI selectedItem.price
        (jsOrI selectedItem.estimated_cost (getFallbackPriceForItem selectedItem))
  { type := itemType,
    data := { selectedItem with
      estimated_cost := some estimatedCost,
      price := some estimatedCost },
    addedAt := addedAt }

/-! ## Itinerary checkout (`handleSaveAllToItinerary`, part_001 lines 539-645) -/

structure SaveItem where
  name : String
  price : Int
  type : String
deriving DecidableEq, Repr

/-- `pendingItems.filter(item => item.type === 'flight').map(item => item.data)`. -/
def savePayloadFlights (pending : List PendingItem) : List SearchResult :=
  (pending.filter (fun it => it.type = "flight")).map (fun it => it.data)

/-- The non-flight payload of the save call (part_001 lines 605-614). -/
def savePayloadItems (pending : List PendingItem) : List SaveItem :=
  (pending.filter (fun it => ¬(it.type = "flight"))).map (fun it =>
    { name := jsOrS it.data.name (jsOrS it.data.title "Unknown"),
      price := jsOrI it.data.estimated_cost
        (jsOrI it.data.price (jsOrI it.data.price_per_night 0)),
      type := if it.type = "" then "other" else it.type })

/-- JS truthiness of a JSON value (objects and arrays are truthy). -/
def truthyJson (j : Json) : Bool :=
  match j with
  | Json.null => false
  | Json.bool b => b
  | Json.num n => n ≠ 0
  | Json.str s => s ≠ ""
  | Json.arr _ => true
  | Json.obj _ => true

/-- Property access `j.k` on a parsed JSON value (`none` models `undefined`). -/
def jget (j : Json) (k : String) : Option Json :=
  match j with
  | Json.obj kvs => (kvs.find? (fun kv => kv.1 = k)).map (fun kv => kv.2)
  | _ => none

/-- Truthiness of an optional-chained access (`undefined` is falsy). -/
def jtruthy (o : Option Json) : Bool :=
  match o with
  | some j => truthyJson j
  | none => false

/-- `a || d` on a JSON field access. -/
def jsOrJson (o : Option Json) (d : Json) : Json :=
  match o with
  | some j => if truthyJson j then j else d
  | none => d

/-- One step of object-literal spread: a later key overrides in place,
a new key is appended (JS insertion-order semantics). -/
def upsertField (acc : List (String × Json)) (kv : String × Json) :
    List (String × Json) :=
  if acc.any (fun p => p.1 = kv.1) then
    acc.map (fun p => if p.1 = kv.1 then kv else p)
  else acc ++ [kv]

/-- `{ ...base, ...ext }` field list. -/
def spreadMerge (base ext : List (String × Json)) : List (String × Json) :=
  ext.foldl upsertField base

def optJsonField (k : String) (v : Option Json) : List (String × Json) :=
  match v with
  | some j => [(k, j)]
  | none => []

/-- The `current` object stored by the checkout after creating an itinerary
(part_001 lines 575-584); `JSON.stringify` drops `undefined` fields. -/
def mkCurrentItinerary (storedItin : Option Json) (itineraryId : Int)
    (itinCount : Nat) : Json :=
  let title := jsOrJson (storedItin.bind (fun j => jget j "title"))
    (Json.str ("Itinerary " ++ toString (itinCount + 1)))
  Json.obj ([("itinerary_id", Json.num itineraryId), ("title", title)]
    ++ optJsonField "origin" (storedItin.bind (fun j => jget j "origin"))
    ++ optJsonField "destination" (storedItin.bind (fun j => jget j "destination"))
    ++ optJsonField "departure_date" (storedItin.bind (fun j => jget j "departure_date"))
    ++ optJsonField "return_date" (storedItin.bind (fun j => jget j "return_date")))

structure Itinerary where
  itinerary_id : Option Int := none
  id : Option Int := none
  title : Option String := none
  destination : Option String := none
deriving DecidableEq, Repr

/-- The server's reply to an itinerary-creation call (`createResp.data`). -/
structure CreateResp where
  itinerary_id : Option Int := none
deriving DecidableEq, Repr

/-- Oracle for the backend calls the checkout makes.  An `Except.error`
carries `err.response?.data?.msg` (`none`/empty when the server sent no
message).  Call arguments (dates, titles, payload) do not influence these
fixed replies, so they are not parameters. -/
structure ServerEnv where
  createFromFlights : Except (Option String) CreateResp
  createBare : Except (Option String) CreateResp
  save : Except (Option String) (List (String × Json))

/-- Component state read by `handleSaveAllToItinerary`. -/
structure CommitState where
  storage : Storage
  pendingItems : List PendingItem
  selectedItineraryId : Option Int
  itineraries : List Itinerary
  currentItinerary : Option Json

/-- Observable outcome of one `handleSaveAllToItinerary` invocation. -/
structure CommitResult where
  storage : Storage
  pendingItems : List PendingItem
  currentItinerary : Option Json
  error : Option String
  success : Option String
  navigatedTo : Option Int
  savedRequest : Option (List SearchResult × List SaveItem)

/-- An early-return result of the checkout: state untouched, an error set. -/
def earlyResult (st : CommitState) (msg : String) : CommitResult :=
  { storage := st.storage, pendingItems := st.pendingItems,
    currentItinerary := st.currentItinerary,
    error := some msg, success := none, navigatedTo := none, savedRequest := none }

/-- The branch of the create flow after the stored current itinerary has been
read (part_001 lines 557-600).  `Except.error` is the handler's early return;
`Except.ok` carries the created/selected id, the storage after the flow, and
the new `currentItinerary` state. -/
def createItineraryFlow2 (st : CommitState) (env : ServerEnv) (storedItin : Option Json) :
    Except CommitResult (Int × Storage × Option Json) :=
  let useFlights := jtruthy storedItin
      && jtruthy (storedItin.bind (fun j => jget j "departure_date"))
      && jtruthy (storedItin.bind (fun j => jget j "return_date"))
  let resp := if useFlights then env.createFromFlights else env.createBare
  match resp with
  | Except.error msg =>
    Except.error (earlyResult st (jsOrS msg "Failed to create itinerary"))
  | Except.ok createResp =>
    match createResp.itinerary_id with
    | some n =>
      if n = 0 then
        -- falsy id: the handler throws "no ID returned"; its inner catch
        -- finds no server message and reports the generic text
        Except.error (earlyResult st "Failed to create itinerary")
      else
        let current := mkCurrentItinerary storedItin n st.itineraries.length
        Except.ok (n, setItem st.storage "planit_current_itinerary" (stringifyS current),
          some current)
    | none => Except.error (earlyResult st "Failed to create itinerary")

/-- The create flow (part_001 lines 552-601), entered when no itinerary id is
selected.  `stored ? JSON.parse(stored) : null` treats an absent value and a
stored empty string alike (`storedItinerary = null`, nothing parsed); for any
other stored value the `JSON.parse` happens before the inner try, so a parse
failure unwinds to the handler's outer catch. -/
def createItineraryFlow (st : CommitState) (env : ServerEnv) :
    Except CommitResult (Int × Storage × Option Json) :=
  match getItem st.storage "planit_current_itinerary" with
  | some s =>
    if s = "" then createItineraryFlow2 st env none
    else
      match jsonParse s with
      | none => Except.error (earlyResult st "Failed to save items")
      | some j => createItineraryFlow2 st env (some j)
  | none => createItineraryFlow2 st env none

/-- The save step of the checkout (part_001 lines 603-644), entered with the
target itinerary id and the storage/state left by the create step. -/
def commitSave (st : CommitState) (env : ServerEnv) (itineraryId : Int)
    (storage1 : Storage) (current1 : Option Json) : CommitResult :=
  let flights := savePayloadFlights st.pendingItems
  let items := savePayloadItems st.pendingItems
  match env.save with
  | Except.error msg =>
    { storage := storage1, pendingItems := st.pendingItems,
      currentItinerary := current1,
      error := some (jsOrS msg "Failed to save items"),
      success := none, navigatedTo := none, savedRequest := some (flights, items) }
  | Except.ok data =>
    let payload := stringifyS (Json.obj
      (spreadMerge [("itinerary_id", Json.num itineraryId)] data))
    let storage2 := setItem storage1 ("planit_saved_data_" ++ toString itineraryId) payload
    let storage3 := setItem storage2 "planit_saved_data" payload
    let storage4 := clearPendingItems storage3
    let storage5 := removeItem storage4 "planit_current_itinerary"
    { storage := storage5, pendingItems := [],
      currentItinerary := none,
      error := none, success := some "All items saved to itinerary!",
      navigatedTo := some itineraryId, savedRequest := some (flights, items) }

/-- Resolution of the target itinerary (part_001 lines 550-601): a selected
truthy id is used as is, otherwise the create flow runs (JS `!itineraryId`
also treats a selected id of 0 as absent). -/
def commitStep (st : CommitState) (env : ServerEnv) :
    Except CommitResult (Int × Storage × Option Json) :=
  match st.selectedItineraryId with
  | some n =>
    if n = 0 then createItineraryFlow st env
    else Except.ok (n, st.storage, st.currentItinerary)
  | none => createItineraryFlow st env

/-- `handleSaveAllToItinerary` (part_001 lines 539-645).  The oracle-irrelevant
side effects (`defaultItineraryTitle` computed for call arguments, the
error-swallowing `loadItineraries` refresh of the dropdown) are omitted. -/
def handleSaveAllToItinerary (st : CommitState) (env : ServerEnv) : CommitResult :=
  if st.pendingItems.length = 0 then
    earlyResult st "No pending items to save"
  else
    match commitStep st env with
    | Except.error r => r
    | Except.ok (itineraryId, storage1, current1) =>
      commitSave st env itineraryId storage1 current1

/-! ## Lemmas about the checkout stages -/

theorem earlyResult_spec (st : CommitState) (msg : String) :
    (earlyResult st msg).storage = st.storage
    ∧ (earlyResult st msg).pendingItems = st.pendingItems
    ∧ (earlyResult st msg).error = some msg
    ∧ (earlyResult st msg).success = none := by
  exact ⟨rfl, rfl, rfl, rfl⟩

theorem createItineraryFlow2_error (st : CommitState) (env : ServerEnv)
    (sj : Option Json) (r : CommitResult)
    (h : createItineraryFlow2 st env sj = Except.error r) :
    r.storage = st.storage ∧ r.pendingItems = st.pendingItems
      ∧ r.error.isSome = true ∧ r.success = none ∧ r.savedRequest = none := by
  simp only [createItineraryFlow2] at h
  repeat' split at h
  all_goals first
    | exact Except.noConfusion h
    | (injection h with h; subst h; exact ⟨rfl, rfl, rfl, rfl, rfl⟩)

theorem createItineraryFlow_error (st : CommitState) (env : ServerEnv) (r : CommitResult)
    (h : createItineraryFlow st env = Except.error r) :
    r.storage = st.storage ∧ r.pendingItems = st.pendingItems
      ∧ r.error.isSome = true ∧ r.success = none ∧ r.savedRequest = none := by
  unfold createItineraryFlow at h
  repeat' split at h
  all_goals first
    | (injection h with h; subst h; exact ⟨rfl, rfl, rfl, rfl, rfl⟩)
    | exact createItineraryFlow2_error _ _ _ _ h

theorem createItineraryFlow2_ok_pending (st : CommitState) (env : ServerEnv)
    (sj : Option Json) (n : Int) (stor : Storage) (cur : Option Json)
    (h : createItineraryFlow2 st env sj = Except.ok (n, stor, cur)) :
    getItem stor STORAGE_KEY = getItem st.storage STORAGE_KEY := by
  simp only [createItineraryFlow2] at h
  repeat' split at h
  all_goals first
    | exact Except.noConfusion h
    | (injection h with h
       simp only [Prod.mk.injEq] at h
       obtain ⟨h1, h2, h3⟩ := h
       subst h2
       exact getItem_setItem_other _ _ _ _ (by decide))

theorem createItineraryFlow_ok_pending (st : CommitState) (env : ServerEnv)
    (n : Int) (stor : Storage) (cur : Option Json)
    (h : createItineraryFlow st env = Except.ok (n, stor, cur)) :
    getItem stor STORAGE_KEY = getItem st.storage STORAGE_KEY := by
  unfold createItineraryFlow at h
  repeat' split at h
  all_goals first
    | exact Except.noConfusion h
    | exact createItineraryFlow2_ok_pending _ _ _ _ _ _ h

theorem savedKey_ne (s : String) :
    ("planit_saved_data_" ++ s) ≠ STORAGE_KEY
    ∧ ("planit_saved_data_" ++ s) ≠ "planit_current_itinerary"
    ∧ ("planit_saved_data_" ++ s) ≠ "planit_saved_data" := by
  have hdata : ("planit_saved_data_" ++ s).data = "planit_saved_data_".data ++ s.data := by
    cases s
    rfl
  refine ⟨?_, ?_, ?_⟩ <;> intro h
  · have h2 := congrArg String.data h
    rw [hdata] at h2
    have h3 := congrArg (fun l => List.take 18 l) h2
    have h4 : List.take 18 ("planit_saved_data_".data ++ s.data)
        = "planit_saved_data_".data := by
      have h5 : (18 : Nat) = ("planit_saved_data_".data).length := by decide
      rw [h5]
      exact List.take_left _ _
    simp only [h4] at h3
    exact absurd h3 (by decide)
  · have h2 := congrArg String.data h
    rw [hdata] at h2
    have h3 := congrArg (fun l => List.take 18 l) h2
    have h4 : List.take 18 ("planit_saved_data_".data ++ s.data)
        = "planit_saved_data_".data := by
      have h5 : (18 : Nat) = ("planit_saved_data_".data).length := by decide
      rw [h5]
      exact List.take_left _ _
    simp only [h4] at h3
    exact absurd h3 (by decide)
  · have h2 := congrArg String.length h
    rw [String.length_append] at h2
    have h3 : ("planit_saved_data_" : String).length = 18 := by decide
    have h4 : ("planit_saved_data" : String).length = 17 := by decide
    omega

theorem commitStep_error (st : CommitState) (env : ServerEnv) (r : CommitResult)
    (h : commitStep st env = Except.error r) :
    r.storage = st.storage ∧ r.pendingItems = st.pendingItems
      ∧ r.error.isSome = true ∧ r.success = none ∧ r.savedRequest = none := by
  unfold commitStep at h
  repeat' split at h
  all_goals first
    | exact Except.noConfusion h
    | exact createItineraryFlow_error _ _ _ h

theorem commitStep_ok_pending (st : CommitState) (env : ServerEnv)
    (n : Int) (stor : Storage) (cur : Option Json)
    (h : commitStep st env = Except.ok (n, stor, cur)) :
    getItem stor STORAGE_KEY = getItem st.storage STORAGE_KEY := by
  unfold commitStep at h
  repeat' split at h
  all_goals first
    | exact createItineraryFlow_ok_pending _ _ _ _ _ h
    | (injection h with h
       simp only [Prod.mk.injEq] at h
       obtain ⟨h1, h2, h3⟩ := h
       subst h2
       rfl)

theorem handleSaveAll_of_step_error (st : CommitState) (env : ServerEnv) (r : CommitResult)
    (hlen : ¬(st.pendingItems.length = 0)) (h : commitStep st env = Except.error r) :
    handleSaveAllToItinerary st env = r := by
  unfold handleSaveAllToItinerary
  rw [if_neg hlen, h]

theorem handleSaveAll_of_step_ok (st : CommitState) (env : ServerEnv)
    (n : Int) (stor : Storage) (cur : Option Json)
    (hlen : ¬(st.pendingItems.length = 0)) (h : commitStep st env = Except.ok (n, stor, cur)) :
    handleSaveAllToItinerary st env = commitSave st env n stor cur := by
  unfold handleSaveAllToItinerary
  rw [if_neg hlen, h]

/-! ## Claim C4 -/

/-- **C4.** Atomicity of the checkout on failure: for every invocation of
`handleSaveAllToItinerary` on a non-empty pending queue that does not succeed
(itinerary creation failed, creation returned no usable id, or the save call
failed — equivalently, no success message was set), the Pending-Item Store's
stored value is unchanged, the mirrored `pendingItems` state is unchanged,
and an error message is surfaced. -/
theorem commit_failure_preserves_pending (st : CommitState) (env : ServerEnv)
    (hne : st.pendingItems ≠ [])
    (hfail : (handleSaveAllToItinerary st env).success = none) :
    getItem (handleSaveAllToItinerary st env).storage STORAGE_KEY
      = getItem st.storage STORAGE_KEY
    ∧ (handleSaveAllToItinerary st env).pendingItems = st.pendingItems
    ∧ (handleSaveAllToItinerary st env).error.isSome = true := by
  have hlen : ¬(st.pendingItems.length = 0) := by
    simpa [List.length_eq_zero] using hne
  rcases hstep : commitStep st env with r | ⟨id, stor, cur⟩
  · have hr := commitStep_error st env r hstep
    have hres := handleSaveAll_of_step_error st env r hlen hstep
    rw [hres]
    exact ⟨by rw [hr.1], hr.2.1, hr.2.2.1⟩
  · have hres := handleSaveAll_of_step_ok st env id stor cur hlen hstep
    rw [hres] at hfail ⊢
    rcases hsave : env.save with msg | data
    · unfold commitSave
      rw [hsave]
      exact ⟨commitStep_ok_pending st env id stor cur hstep, rfl, rfl⟩
    · exfalso
      unfold commitSave at hfail
      rw [hsave] at hfail
      exact Option.noConfusion hfail

theorem commit_failure_preserves_pending_witness :
    getItem (handleSaveAllToItinerary
        { storage := emptyStorage,
          pendingItems := [{ type := "hotel", data := {}, addedAt := "t" }],
          selectedItineraryId := none, itineraries := [], currentItinerary := none }
        { createFromFlights := Except.error (some "boom"),
          createBare := Except.error (some "boom"),
          save := Except.error none }).storage STORAGE_KEY
      = getItem (emptyStorage : Storage) STORAGE_KEY
    ∧ (handleSaveAllToItinerary
        { storage := emptyStorage,
          pendingItems := [{ type := "hotel", data := {}, addedAt := "t" }],
          selectedItineraryId := none, itineraries := [], currentItinerary := none }
        { createFromFlights := Except.error (some "boom"),
          createBare := Except.error (some "boom"),
          save := Except.error none }).pendingItems
      = [{ type := "hotel", data := {}, addedAt := "t" }]
    ∧ (handleSaveAllToItinerary
        { storage := emptyStorage,
          pendingItems := [{ type := "hotel", data := {}, addedAt := "t" }],
          selectedItineraryId := none, itineraries := [], currentItinerary := none }
        { createFromFlights := Except.error (some "boom"),
          createBare := Except.error (some "boom"),
          save := Except.error none }).error.isSome = true :=
  commit_failure_preserves_pending _ _ (by simp) rfl

/-! ## Claim C5 -/

/-- **C5.** Success postconditions of the checkout: whenever an invocation of
`handleSaveAllToItinerary` ends with no error (equivalently, the save call
succeeded), the server's response is persisted under the key derived from the
target itinerary id, the Pending-Item Store is empty (stored key removed and
state cleared), the CurrentItinerary cache is cleared, and success is
reported. -/
theorem commit_success_postconditions (st : CommitState) (env : ServerEnv)
    (hok : (handleSaveAllToItinerary st env).error = none) :
    ∃ id data, env.save = Except.ok data
      ∧ (handleSaveAllToItinerary st env).navigatedTo = some id
      ∧ getItem (handleSaveAllToItinerary st env).storage ("planit_saved_data_" ++ toString id)
          = some (stringifyS (Json.obj (spreadMerge [("itinerary_id", Json.num id)] data)))
      ∧ getItem (handleSaveAllToItinerary st env).storage STORAGE_KEY = none
      ∧ (handleSaveAllToItinerary st env).pendingItems = []
      ∧ getItem (handleSaveAllToItinerary st env).storage "planit_current_itinerary" = none
      ∧ (handleSaveAllToItinerary st env).currentItinerary = none
      ∧ (handleSaveAllToItinerary st env).success = some "All items saved to itinerary!" := by
  by_cases hlen : st.pendingItems.length = 0
  · exfalso
    unfold handleSaveAllToItinerary at hok
    rw [if_pos hlen] at hok
    exact Option.noConfusion hok
  · rcases hstep : commitStep st env with r | ⟨id, stor, cur⟩
    · exfalso
      have hr := commitStep_error st env r hstep
      have hres := handleSaveAll_of_step_error st env r hlen hstep
      rw [hres] at hok
      have h3 := hr.2.2.1
      rw [hok] at h3
      exact Bool.noConfusion h3
    · have hres := handleSaveAll_of_step_ok st env id stor cur hlen hstep
      rcases hsave : env.save with msg | data
      · exfalso
        rw [hres] at hok
        unfold commitSave at hok
        rw [hsave] at hok
        exact Option.noConfusion hok
      · refine ⟨id, data, rfl, ?_⟩
        rw [hres]
        unfold commitSave
        rw [hsave]
        refine ⟨rfl, ?_, ?_, rfl, ?_, rfl, rfl⟩
        · show getItem (removeItem (removeItem _ STORAGE_KEY) "planit_current_itinerary")
              ("planit_saved_data_" ++ toString id) = _
          rw [getItem_removeItem_other _ _ _ (savedKey_ne (toString id)).2.1,
            getItem_removeItem_other _ _ _ (savedKey_ne (toString id)).1,
            getItem_setItem_other _ _ _ _ (savedKey_ne (toString id)).2.2,
            getItem_setItem_same]
        · show getItem (removeItem (removeItem _ STORAGE_KEY) "planit_current_itinerary")
              STORAGE_KEY = none
          rw [getItem_removeItem_other _ _ _ (by decide),
            getItem_removeItem_same]
        · show getItem (removeItem (removeItem _ STORAGE_KEY) "planit_current_itinerary")
              "planit_current_itinerary" = none
          rw [getItem_removeItem_same]

theorem commit_success_postconditions_witness :
    ∃ id data,
      ({ createFromFlights := Except.error none, createBare := Except.ok { itinerary_id := some 7 },
         save := Except.ok [("total_cost", Json.num 500)] } : ServerEnv).save = Except.ok data
      ∧ (handleSaveAllToItinerary
          { storage := emptyStorage,
            pendingItems := [{ type := "attraction", data := {}, addedAt := "t" }],
            selectedItineraryId := none, itineraries := [], currentItinerary := none }
          { createFromFlights := Except.error none, createBare := Except.ok { itinerary_id := some 7 },
            save := Except.ok [("total_cost", Json.num 500)] }).navigatedTo = some id
      ∧ getItem (handleSaveAllToItinerary
          { storage := emptyStorage,
            pendingItems := [{ type := "attraction", data := {}, addedAt := "t" }],
            selectedItineraryId := none, itineraries := [], currentItinerary := none }
          { createFromFlights := Except.error none, createBare := Except.ok { itinerary_id := some 7 },
            save := Except.ok [("total_cost", Json.num 500)] }).storage
          ("planit_saved_data_" ++ toString id)
          = some (stringifyS (Json.obj (spreadMerge [("itinerary_id", Json.num id)] data)))
      ∧ getItem (handleSaveAllToItinerary
          { storage := emptyStorage,
            pendingItems := [{ type := "attraction", data := {}, addedAt := "t" }],
            selectedItineraryId := none, itineraries := [], currentItinerary := none }
          { createFromFlights := Except.error none, createBare := Except.ok { itinerary_id := some 7 },
            save := Except.ok [("total_cost", Json.num 500)] }).storage STORAGE_KEY = none
      ∧ (handleSaveAllToItinerary
          { storage := emptyStorage,
            pendingItems := [{ type := "attraction", data := {}, addedAt := "t" }],
            selectedItineraryId := none, itineraries := [], currentItinerary := none }
          { createFromFlights := Except.error none, createBare := Except.ok { itinerary_id := some 7 },
            save := Except.ok [("total_cost", Json.num 500)] }).pendingItems = []
      ∧ getItem (handleSaveAllToItinerary
          { storage := emptyStorage,
            pendingItems := [{ type := "attraction", data := {}, addedAt := "t" }],
            selectedItineraryId := none, itineraries := [], currentItinerary := none }
          { createFromFlights := Except.error none, createBare := Except.ok { itinerary_id := some 7 },
            save := Except.ok [("total_cost", Json.num 500)] }).storage "planit_current_itinerary" = none
      ∧ (handleSaveAllToItinerary
          { storage := emptyStorage,
            pendingItems := [{ type := "attraction", data := {}, addedAt := "t" }],
            selectedItineraryId := none, itineraries := [], currentItinerary := none }
          { createFromFlights := Except.error none, createBare := Except.ok { itinerary_id := some 7 },
            save := Except.ok [("total_cost", Json.num 500)] }).currentItinerary = none
      ∧ (handleSaveAllToItinerary
          { storage := emptyStorage,
            pendingItems := [{ type := "attraction", data := {}, addedAt := "t" }],
            selectedItineraryId := none, itineraries := [], currentItinerary := none }
          { createFromFlights := Except.error none, createBare := Except.ok { itinerary_id := some 7 },
            save := Except.ok [("total_cost", Json.num 500)] }).success
        = some "All items saved to itinerary!" :=
  commit_success_postconditions _ _ rfl

/-! ## Claim C1 -/

theorem commit_savedRequest (st : CommitState) (env : ServerEnv)
    (fl : List SearchResult) (its : List SaveItem)
    (h : (handleSaveAllToItinerary st env).savedRequest = some (fl, its)) :
    fl = savePayloadFlights st.pendingItems ∧ its = savePayloadItems st.pendingItems := by
  by_cases hlen : st.pendingItems.length = 0
  · exfalso
    unfold handleSaveAllToItinerary at h
    rw [if_pos hlen] at h
    exact Option.noConfusion h
  · rcases hstep : commitStep st env with r | ⟨id, stor, cur⟩
    · exfalso
      have hr := commitStep_error st env r hstep
      have hres := handleSaveAll_of_step_error st env r hlen hstep
      rw [hres] at h
      rw [hr.2.2.2.2] at h
      exact Option.noConfusion h
    · have hres := handleSaveAll_of_step_ok st env id stor cur hlen hstep
      rw [hres] at h
      unfold commitSave at h
      rcases hsave : env.save with msg | data <;> rw [hsave] at h <;>
        (injection h with h
         simp only [Prod.mk.injEq] at h
         exact ⟨h.1.symm, h.2.symm⟩)

/-- **C1 counterexample.** A checkout whose pending queue holds exactly one
hotel record carrying `price_per_night = 100` and no other price field
submits that item with price **100**, not 300: the save payload takes
`estimated_cost || price || price_per_night || 0` and never multiplies by the
stay length (that multiplication happens earlier, at add-to-pending time). -/
theorem commit_ppn_only_payload_price_100 :
    (handleSaveAllToItinerary
        { storage := emptyStorage,
          pendingItems := [{ type := "hotel", data := { price_per_night := some 100 }, addedAt := "t" }],
          selectedItineraryId := some 5, itineraries := [], currentItinerary := none }
        { createFromFlights := Except.error none, createBare := Except.error none,
          save := Except.ok [] }).savedRequest
      = some ([], [{ name := "Unknown", price := 100, type := "hotel" }])
    ∧ ({ name := "Unknown", price := 100, type := "hotel" } : SaveItem).price ≠ 300 := by
  exact ⟨rfl, by decide⟩

/-- **C1 amended.** The per-night-times-nights computation happens at
add-to-pending time: when the single pending hotel item was produced by the
add flow (`handleAddToLocalStorage`) from a record with
`price_per_night = 100` and a stay of 3 nights, the non-flight payload the
checkout submits to the save endpoint carries that item with price 300. -/
theorem commit_addflow_hotel_price_300 (st : CommitState) (env : ServerEnv)
    (it : SearchResult) (ci co : Option Int) (t : String)
    (hppn : it.price_per_night = some 100)
    (hnights : computeNights ci co = 3)
    (hpend : st.pendingItems = [handleAddToLocalStorage "hotels" it ci co t])
    (fl : List SearchResult) (its : List SaveItem)
    (hreq : (handleSaveAllToItinerary st env).savedRequest = some (fl, its)) :
    its.map (fun x => x.price) = [300] := by
  obtain ⟨-, hits⟩ := commit_savedRequest st env fl its hreq
  subst hits
  rw [hpend]
  unfold savePayloadItems handleAddToLocalStorage
  simp [hppn, hnights, jsOrI]

theorem commit_addflow_hotel_price_300_witness :
    ((savePayloadItems [handleAddToLocalStorage "hotels" { price_per_night := some 100 }
        (some 0) (some 259200000) "t"]).map (fun x => x.price)) = [300] := by
  have henv : (handleSaveAllToItinerary
      { storage := emptyStorage,
        pendingItems := [handleAddToLocalStorage "hotels" { price_per_night := some 100 }
          (some 0) (some 259200000) "t"],
        selectedItineraryId := some 5, itineraries := [], currentItinerary := none }
      { createFromFlights := Except.error none, createBare := Except.error none,
        save := Except.ok [] }).savedRequest
      = some ([], savePayloadItems [handleAddToLocalStorage "hotels"
          { price_per_night := some 100 } (some 0) (some 259200000) "t"]) := by rfl
  exact commit_addflow_hotel_price_300
    { storage := emptyStorage,
      pendingItems := [handleAddToLocalStorage "hotels" { price_per_night := some 100 }
        (some 0) (some 259200000) "t"],
      selectedItineraryId := some 5, itineraries := [], currentItinerary := none }
    { createFromFlights := Except.error none, createBare := Except.error none,
      save := Except.ok [] }
    { price_per_night := some 100 } (some 0) (some 259200000) "t"
    rfl (by decide) rfl _ _ henv

/-! ## Claim C6 -/

/-- **C6.** `computeNights`: a missing date gives 1; an end date that
precedes or equals the start gives 1; otherwise the result is the rounded
day difference clamped to a minimum of 1 (the spec's "clamped to a minimum
of 1", restated in the claim as "always at least 1"); and the result is
always at least 1. -/
theorem computeNights_spec (checkIn checkOut : Option Int) :
    1 ≤ computeNights checkIn checkOut
    ∧ (checkIn = none ∨ checkOut = none → computeNights checkIn checkOut = 1)
    ∧ (∀ s e, checkIn = some s → checkOut = some e → e ≤ s →
        computeNights checkIn checkOut = 1)
    ∧ (∀ s e, checkIn = some s → checkOut = some e → s < e →
        computeNights checkIn checkOut
          = max 1 ((2 * (e - s) + 86400000) / 172800000)) := by
  rcases checkIn with _ | s
  · exact ⟨by simp [computeNights], fun _ => by simp [computeNights],
      fun s e hs => Option.noConfusion hs, fun s e hs => Option.noConfusion hs⟩
  · rcases checkOut with _ | e
    · exact ⟨by simp [computeNights], fun _ => by simp [computeNights],
      fun s' e' _ he => Option.noConfusion he, fun s' e' _ he => Option.noConfusion he⟩
    · refine ⟨?_, ?_, ?_, ?_⟩
      · simp only [computeNights]
        split <;> omega
      · intro h
        rcases h with h | h <;> exact Option.noConfusion h
      · intro s' e' hs he hle
        injection hs with hs
        injection he with he
        subst hs
        subst he
        simp only [computeNights]
        split <;> omega
      · intro s' e' hs he hlt
        injection hs with hs
        injection he with he
        subst hs
        subst he
        simp only [computeNights]
        split <;> omega

theorem computeNights_spec_witness :
    1 ≤ computeNights (some 0) (some 259200000)
    ∧ computeNights (some 100) none = 1
    ∧ computeNights (some 259200000) (some 0) = 1
    ∧ computeNights (some 0) (some 259200000)
        = max 1 ((2 * (259200000 - 0) + 86400000) / 172800000) :=
  ⟨(computeNights_spec (some 0) (some 259200000)).1,
   (computeNights_spec (some 100) none).2.1 (Or.inr rfl),
   (computeNights_spec (some 259200000) (some 0)).2.2.1 259200000 0 rfl rfl (by decide),
   (computeNights_spec (some 0) (some 259200000)).2.2.2 0 259200000 rfl rfl (by decide)⟩

/-! ## Claim C2 -/

/-- **C2.** The fallback price is a pure function (equal inputs give equal
results, within and across sessions), its value always lies in the inclusive
range `FALLBACK_LOW = 100` to `FALLBACK_HIGH = 400` dollars, and the hash key
is the first truthy stable identifier field
(`hotel_key || hotel_id || id || name || title`) when one is present, else
the stringified whole record. -/
theorem getFallbackPriceForItem_spec (a b : SearchResult) :
    (a = b → getFallbackPriceForItem a = getFallbackPriceForItem b)
    ∧ FALLBACK_LOW ≤ getFallbackPriceForItem a
    ∧ getFallbackPriceForItem a ≤ FALLBACK_HIGH
    ∧ (fallbackKeyString a ≠ "" →
        getFallbackPriceForItem a
          = FALLBACK_LOW + ((hashDjb2 (fallbackKeyString a).data).natAbs : Int) % 301)
    ∧ (fallbackKeyString a = "" →
        getFallbackPriceForItem a
          = FALLBACK_LOW
            + ((hashDjb2 (stringifyS (searchResultToJson a)).data).natAbs : Int) % 301) := by
  refine ⟨fun h => by rw [h], ?_, ?_, ?_, ?_⟩
  · simp only [getFallbackPriceForItem, FALLBACK_LOW, FALLBACK_HIGH]
    omega
  · simp only [getFallbackPriceForItem, FALLBACK_LOW, FALLBACK_HIGH]
    omega
  · intro hk
    simp only [getFallbackPriceForItem, FALLBACK_LOW, FALLBACK_HIGH, if_neg hk]
    norm_num
  · intro hk
    simp only [getFallbackPriceForItem, FALLBACK_LOW, FALLBACK_HIGH, hk, if_pos]
    norm_num

theorem getFallbackPriceForItem_spec_witness :
    getFallbackPriceForItem { hotel_key := some "H1" }
      = getFallbackPriceForItem { hotel_key := some "H1" }
    ∧ FALLBACK_LOW ≤ getFallbackPriceForItem { hotel_key := some "H1" }
    ∧ getFallbackPriceForItem { hotel_key := some "H1" } ≤ FALLBACK_HIGH
    ∧ getFallbackPriceForItem { hotel_key := some "H1" }
        = FALLBACK_LOW
          + ((hashDjb2 (fallbackKeyString { hotel_key := some "H1" }).data).natAbs : Int) % 301
    ∧ getFallbackPriceForItem {}
        = FALLBACK_LOW
          + ((hashDjb2 (stringifyS (searchResultToJson {})).data).natAbs : Int) % 301 :=
  ⟨(getFallbackPriceForItem_spec { hotel_key := some "H1" } _).1 rfl,
   (getFallbackPriceForItem_spec { hotel_key := some "H1" } { hotel_key := some "H1" }).2.1,
   (getFallbackPriceForItem_spec { hotel_key := some "H1" } { hotel_key := some "H1" }).2.2.1,
   (getFallbackPriceForItem_spec { hotel_key := some "H1" } { hotel_key := some "H1" }).2.2.2.1
     (by decide),
   (getFallbackPriceForItem_spec {} {}).2.2.2.2 (by decide)⟩

/-! ## Claim C10 -/

/-- The claim's notion of the derived identifier key: the first *present*
field among `hotel_key`, `hotel_id`, `id`, `name`, `title` (present even if
empty — presence, not truthiness). -/
def firstPresentKey (it : SearchResult) : Option String :=
  match it.hotel_key, it.hotel_id, it.id, it.name, it.title with
  | some s, _, _, _, _ => some s
  | none, some s, _, _, _ => some s
  | none, none, some s, _, _ => some s
  | none, none, none, some s, _ => some s
  | none, none, none, none, some s => some s
  | none, none, none, none, none => none

theorem fallbackKeyString_of_firstPresent (it : SearchResult) (s : String)
    (h : firstPresentKey it = some s) (hne : s ≠ "") : fallbackKeyString it = s := by
  obtain ⟨nm, tl, ds, pr, pn, rt, xd, hid, hk, idf, iu, im, th, ph, ad, bt, dm, ec⟩ := it
  simp only [firstPresentKey, fallbackKeyString, jsOrS] at *
  cases hk <;> cases hid <;> cases idf <;> cases nm <;> cases tl <;> simp_all

/-- **C10.** Noninterference of non-key fields in the fallback price: two
search-result records whose first-present field among `hotel_key`,
`hotel_id`, `id`, `name`, `title` is the same non-empty string get the same
fallback price, regardless of all their other fields. -/
theorem fallbackPrice_noninterference (a b : SearchResult) (s : String)
    (ha : firstPresentKey a = some s) (hb : firstPresentKey b = some s)
    (hs : s ≠ "") :
    getFallbackPriceForItem a = getFallbackPriceForItem b := by
  have ka := fallbackKeyString_of_firstPresent a s ha hs
  have kb := fallbackKeyString_of_firstPresent b s hb hs
  simp only [getFallbackPriceForItem, ka, kb, if_neg hs]

theorem fallbackPrice_noninterference_witness :
    getFallbackPriceForItem { hotel_key := some "K7", price := some 5, address := some "x" }
      = getFallbackPriceForItem { hotel_id := some "K7", rating := some 4, image := some "i" } :=
  fallbackPrice_noninterference
    { hotel_key := some "K7", price := some 5, address := some "x" }
    { hotel_id := some "K7", rating := some 4, image := some "i" }
    "K7" (by decide) (by decide) (by decide)

/-! ## Claim C7 -/

/-- **C7 counterexample.** An attractions entry that *carries* both an
`address` field and a `price_per_night` field, but with JS-falsy values
(`""` and `0`), is **not** excluded: `isHotelLike` tests truthiness, not
presence, so the entry appears in the normalized attraction results. -/
theorem attractions_falsy_hotel_fields_kept :
    (handleSearchAttractions (some [{ price_per_night := some 0, address := some "" }])).1
      = [normalizeAttraction { price_per_night := some 0, address := some "" }]
    ∧ (handleSearchAttractions (some [{ price_per_night := some 0, address := some "" }])).1
      ≠ []
    ∧ (normalizeAttraction { price_per_night := some 0, address := some "" }).price_per_night
      = some 0
    ∧ (normalizeAttraction { price_per_night := some 0, address := some "" }).address
      = some "" := by
  exact ⟨rfl, by decide, rfl, rfl⟩

/-- **C7 amended.** Every raw attractions entry with a *truthy* per-night
price (non-zero) or a *truthy* address (non-empty) — the JS-truthiness
reading of "carries the field" — is excluded from the normalized attraction
results; entries whose hotel-like fields are all falsy are kept. -/
theorem attractions_truthy_hotel_like_excluded (raw : List SearchResult) (it : SearchResult)
    (_hmem : it ∈ raw)
    (hfield : truthyI it.price_per_night = true ∨ truthyS it.address = true) :
    normalizeAttraction it ∉ processAttractions raw := by
  intro hout
  have hfil : isHotelLike (normalizeAttraction it) = false := by
    unfold processAttractions at hout
    have h2 := (List.mem_filter.mp hout).2
    simpa using h2
  have hpres : isHotelLike (normalizeAttraction it) = true := by
    unfold isHotelLike normalizeAttraction
    rcases hfield with h | h <;> simp [h]
  rw [hpres] at hfil
  exact Bool.noConfusion hfil

theorem attractions_truthy_hotel_like_excluded_witness :
    normalizeAttraction { price_per_night := some 50, address := some "12 Main St" }
      ∉ processAttractions [{ price_per_night := some 50, address := some "12 Main St" }] :=
  attractions_truthy_hotel_like_excluded
    [{ price_per_night := some 50, address := some "12 Main St" }]
    { price_per_night := some 50, address := some "12 Main St" }
    (List.mem_cons_self _ _) (Or.inl (by decide))

/-! ## Claim C8 -/

/-- **C8 counterexample.** A poll fetch whose message identifiers are all
already held locally still replaces the state when the lengths differ
(here the fetch shrank from 2 messages to 1): the merge does not skip the
update, contradicting "skips whenever no new identifier is present". -/
theorem mergeMessages_replaces_on_shrunk_fetch :
    mergeMessages
        [{ message_id := 1, sender_id := 1, content := "a" },
         { message_id := 2, sender_id := 1, content := "b" }]
        [{ message_id := 1, sender_id := 1, content := "a" }]
      = [{ message_id := 1, sender_id := 1, content := "a" }]
    ∧ mergeMessages
        [{ message_id := 1, sender_id := 1, content := "a" },
         { message_id := 2, sender_id := 1, content := "b" }]
        [{ message_id := 1, sender_id := 1, content := "a" }]
      ≠ [{ message_id := 1, sender_id := 1, content := "a" },
         { message_id := 2, sender_id := 1, content := "b" }] := by
  exact ⟨rfl, by decide⟩

/-- **C8 amended.** The merge skips the state update (returns `prev` itself)
exactly when the fetch brings no identifier that is not already held locally
**and** has the same length as the local state; in every other case —
including a fetch with no new identifiers but a different length — it
replaces the state with the fetched sequence. -/
theorem mergeMessages_spec (prev neu : List Message) :
    ((∀ m ∈ neu, m.message_id ∈ prev.map (fun x => x.message_id))
        ∧ prev.length = neu.length →
      mergeMessages prev neu = prev)
    ∧ (¬((∀ m ∈ neu, m.message_id ∈ prev.map (fun x => x.message_id))
        ∧ prev.length = neu.length) →
      mergeMessages prev neu = neu) := by
  have hiff : (neu.filter
        (fun m => !((prev.map (fun x => x.message_id)).contains m.message_id))).length = 0
      ↔ ∀ m ∈ neu, m.message_id ∈ prev.map (fun x => x.message_id) := by
    rw [List.length_eq_zero, List.filter_eq_nil_iff]
    constructor
    · intro h m hm
      have := h m hm
      simpa using this
    · intro h m hm
      simp [h m hm]
  constructor
  · intro ⟨hsub, hlen⟩
    unfold mergeMessages
    rw [if_pos ⟨hiff.mpr hsub, hlen⟩]
  · intro hnot
    unfold mergeMessages
    rw [if_neg]
    intro ⟨h1, h2⟩
    exact hnot ⟨hiff.mp h1, h2⟩

theorem mergeMessages_spec_witness :
    mergeMessages
        [{ message_id := 1, sender_id := 1, content := "a" },
         { message_id := 2, sender_id := 2, content := "b" }]
        [{ message_id := 1, sender_id := 1, content := "a" },
         { message_id := 2, sender_id := 2, content := "b" }]
      = [{ message_id := 1, sender_id := 1, content := "a" },
         { message_id := 2, sender_id := 2, content := "b" }]
    ∧ mergeMessages
        [{ message_id := 1, sender_id := 1, content := "a" }]
        [{ message_id := 1, sender_id := 1, content := "a" },
         { message_id := 3, sender_id := 2, content := "c" }]
      = [{ message_id := 1, sender_id := 1, content := "a" },
         { message_id := 3, sender_id := 2, content := "c" }] :=
  ⟨(mergeMessages_spec _ _).1 ⟨by decide, rfl⟩,
   (mergeMessages_spec _ _).2 (by intro h; exact absurd h.2 (by decide))⟩

/-! ## Claim C3 -/

/-- **C3 counterexample.** Reading the Pending-Item Store *can* fail: on a
malformed stored value, `getPendingItems` runs `JSON.parse` with no
try/catch, so the `SyntaxError` propagates instead of an empty sequence
being returned. -/
theorem getPendingItems_malformed_raises :
    getPendingItems (some "xyz") = Except.error "SyntaxError: JSON.parse"
    ∧ getPendingItems (some "xyz") ≠ Except.ok (Json.arr []) := by
  refine ⟨rfl, ?_⟩
  intro h
  have h2 : (Except.error "SyntaxError: JSON.parse" : Except String Json)
      = Except.ok (Json.arr []) :=
    (rfl : getPendingItems (some "xyz")
      = Except.error "SyntaxError: JSON.parse").symm.trans h
  exact Except.noConfusion h2

/-- **C3 amended.** Reading the Pending-Item Store returns the empty sequence
for an *absent* value and for a stored *empty string* (the only malformed
value that is JS-falsy, so `JSON.parse` is never called on it), and the
parsed value for well-formed JSON; but for every other malformed (non-empty,
unparseable) stored value `JSON.parse` raises and the error propagates — the
claimed general fail-open behavior is not implemented in `getPendingItems`. -/
theorem getPendingItems_spec :
    getPendingItems none = Except.ok (Json.arr [])
    ∧ getPendingItems (some "") = Except.ok (Json.arr [])
    ∧ (∀ s j, s ≠ "" → jsonParse s = some j → getPendingItems (some s) = Except.ok j)
    ∧ (∀ s, s ≠ "" → jsonParse s = none →
        getPendingItems (some s) = Except.error "SyntaxError: JSON.parse") := by
  refine ⟨rfl, rfl, ?_, ?_⟩
  · intro s j hne h
    unfold getPendingItems
    dsimp only []
    rw [if_neg hne, h]
  · intro s hne h
    unfold getPendingItems
    dsimp only []
    rw [if_neg hne, h]

theorem getPendingItems_spec_witness :
    getPendingItems (some "[]") = Except.ok (Json.arr [])
    ∧ getPendingItems (some "xy") = Except.error "SyntaxError: JSON.parse" :=
  ⟨getPendingItems_spec.2.2.1 "[]" (Json.arr []) (by decide) rfl,
   getPendingItems_spec.2.2.2 "xy" (by decide) rfl⟩

/-! ## Claim C9 -/

theorem eraseIdx_append_len {α : Type} (l : List α) (x : α) :
    (l ++ [x]).eraseIdx l.length = l := by
  induction l with
  | nil => rfl
  | cons a l ih =>
    show (a :: (l ++ [x])).eraseIdx (l.length + 1) = a :: l
    rw [List.eraseIdx_cons_succ, ih]

theorem stringifyS_arr_ne_empty (l : List Json) : stringifyS (Json.arr l) ≠ "" := by
  intro h
  have h2 : ('[' :: (printArrItems l ++ [']']) : List Char) = ([] : List Char) :=
    congrArg String.data h
  exact List.noConfusion h2

theorem wfArrB_append (l1 l2 : List Json) :
    wfArrB (l1 ++ l2) = (wfArrB l1 && wfArrB l2) := by
  induction l1 with
  | nil => simp [wfArrB]
  | cons x xs ih =>
    show wfArrB (x :: (xs ++ l2)) = _
    rw [wfArrB, ih, wfArrB]
    simp [Bool.and_assoc]

/-- **C9 counterexample.** When the pending-item key is absent, adding an
item and then removing it at its position does *not* restore the serialized
content: the key goes from absent to holding the serialized empty array
`"[]"` (the parsed sequence is the same, but the claim is about the
serialized content). -/
theorem pending_roundtrip_absent_key_cex :
    getItem emptyStorage STORAGE_KEY = none
    ∧ ((addPendingItem emptyStorage (Json.obj [("type", Json.str "hotel")])).bind
        (fun st1 => (removePendingItem st1 0).map (fun st2 => getItem st2 STORAGE_KEY)))
      = Except.ok (some "[]")
    ∧ some "[]" ≠ (none : Option String) := by
  exact ⟨rfl, rfl, by decide⟩

/-- **C9 amended.** For every starting content that is the canonical
serialization of an item array, adding an item and then removing it at the
appended position (`l.length`) restores the serialized content exactly;
only an absent key (or a non-canonical serialization) breaks byte-for-byte
equality, and then only down to the parsed-sequence level. -/
theorem pending_add_remove_roundtrip (st : Storage) (l : List Json) (item : Json)
    (hl : wfB (Json.arr l) = true) (hi : wfB item = true)
    (hst : getItem st STORAGE_KEY = some (stringifyS (Json.arr l))) :
    ((addPendingItem st item).bind
      (fun st1 => (removePendingItem st1 l.length).map (fun st2 => getItem st2 STORAGE_KEY)))
    = Except.ok (getItem st STORAGE_KEY) := by
  have hwl : wfArrB l = true := by
    have := hl
    rw [wfB] at this
    exact this
  have hwf2 : wfB (Json.arr (l ++ [item])) = true := by
    rw [wfB, wfArrB_append, hwl]
    simp [wfArrB, hi]
  have h1 : addPendingItem st item
      = Except.ok (setItem st STORAGE_KEY (stringifyS (Json.arr (l ++ [item])))) := by
    unfold addPendingItem getPendingItems
    rw [hst]
    dsimp only []
    rw [if_neg (stringifyS_arr_ne_empty l), jsonParse_stringify _ hl]
  have h2 : removePendingItem
        (setItem st STORAGE_KEY (stringifyS (Json.arr (l ++ [item])))) l.length
      = Except.ok (setItem (setItem st STORAGE_KEY (stringifyS (Json.arr (l ++ [item]))))
          STORAGE_KEY (stringifyS (Json.arr l))) := by
    unfold removePendingItem getPendingItems
    rw [getItem_setItem_same]
    dsimp only []
    rw [if_neg (stringifyS_arr_ne_empty (l ++ [item])), jsonParse_stringify _ hwf2]
    simp [eraseIdx_append_len]
  rw [h1]
  show (removePendingItem
      (setItem st STORAGE_KEY (stringifyS (Json.arr (l ++ [item])))) l.length).map
      (fun st2 => getItem st2 STORAGE_KEY) = _
  rw [h2]
  show Except.ok (getItem (setItem _ STORAGE_KEY (stringifyS (Json.arr l))) STORAGE_KEY) = _
  rw [getItem_setItem_same, hst]

theorem pending_add_remove_roundtrip_witness :
    ((addPendingItem (setItem emptyStorage STORAGE_KEY "[]")
        (Json.obj [("type", Json.str "hotel")])).bind
      (fun st1 => (removePendingItem st1 (List.length ([] : List Json))).map
        (fun st2 => getItem st2 STORAGE_KEY)))
    = Except.ok (getItem (setItem emptyStorage STORAGE_KEY "[]") STORAGE_KEY) :=
  pending_add_remove_roundtrip (setItem emptyStorage STORAGE_KEY "[]") []
    (Json.obj [("type", Json.str "hotel")]) (by decide) (by decide) rfl
